import Mathlib

/-!
Verification of the Harvesters-Hub backend (a small Express/Mongoose REST
service) against its natural-language specification.

The development shallowly embeds the relevant JavaScript routes:

* the string normalisation used by the registration endpoints
  (`name.trim().replace(/\s+/g, " ")`, `.toLowerCase()`), modelled on
  `List Char`;
* the five identity collections (Campus, District, Community, Cell,
  SuperAdmin) of the refined server variant, their `pre("save")` hooks and
  the registration routes with their duplicate checks;
* the `/api/universal-login2` cascade resolver and its outcome taxonomy;
* the media-post upload route and the per-device like toggle of
  `/api/uploads/:id/like`.

Strings are modelled as `List Char`; `toLowerCase` is modelled on the ASCII
range (the only range exercised by the repository); MongoDB `findOne` is
modelled as `List.find?` over the collection in insertion order, and a
query on a field that a schema does not have (the `email` clause probed on
Community documents, which carry no `email` path) matches no document,
following MongoDB equality semantics on a missing field.
-/

namespace HarvestersHub

/-- Strings of the embedding: JavaScript strings as lists of characters. -/
abbrev Str := List Char

/-- Whitespace test of the embedding, covering the characters of the
JavaScript class `\s` that the repository can meet: space, tab, line feed,
carriage return, vertical tab and form feed. -/
def isWs (c : Char) : Bool :=
  decide (c.toNat = 32 ∨ c.toNat = 9 ∨ c.toNat = 10 ∨ c.toNat = 13 ∨
    c.toNat = 11 ∨ c.toNat = 12)

/-- ASCII lowering of one character, the model of JavaScript
`toLowerCase` on the character range the repository uses. -/
def lowerChar (c : Char) : Char :=
  if 65 ≤ c.toNat ∧ c.toNat ≤ 90 then Char.ofNat (c.toNat + 32) else c

/-- Model of `s.toLowerCase()`. -/
def toLowerCase (s : Str) : Str := s.map lowerChar

/-- Model of `s.trim()`: drop whitespace from both ends. -/
def trimStr (s : Str) : Str :=
  ((s.dropWhile isWs).reverse.dropWhile isWs).reverse

/-- Model of `s.replace(/\s+/g, " ")`: every maximal whitespace run becomes
one space. Structural recursion keeps the definition kernel-reducible. -/
def collapseWs : Str → Str
  | [] => []
  | [c] => if isWs c then [' '] else [c]
  | c :: d :: rest =>
    if isWs c && isWs d then collapseWs (d :: rest)
    else (if isWs c then ' ' else c) :: collapseWs (d :: rest)

/-- Model of `name.trim().replace(/\s+/g, " ")`, the display-name cleaning
shared by every refined registration route. -/
def cleanName (s : Str) : Str := collapseWs (trimStr s)

/-- Model of `email.trim().toLowerCase()`. -/
def cleanEmail (s : Str) : Str := toLowerCase (trimStr s)

/-- Model of `identifier.trim().toLowerCase()` at the top of
`/api/universal-login2`. -/
def normalizeIdentifier (s : Str) : Str := toLowerCase (trimStr s)

/-- Model of the `pre("save")` hooks: `this.name.toLowerCase().trim()`. -/
def hookNormalize (name : Str) : Str := trimStr (toLowerCase name)

/-- Model of the `lowercase: true` setter that the schemas attach to the
`normalizedName` path: every value assigned to the path is lowercased. -/
def setNormalized (v : Str) : Str := toLowerCase v

/-! ### Character-level lemmas -/

theorem char_toNat_ofNat (n : Nat) (h : n < 55296) : (Char.ofNat n).toNat = n := by
  unfold Char.ofNat
  rw [dif_pos (Or.inl h)]
  rfl

theorem isWs_lowerChar (c : Char) : isWs (lowerChar c) = isWs c := by
  unfold lowerChar
  split
  · rename_i h
    have e1 : (Char.ofNat (c.toNat + 32)).toNat = c.toNat + 32 :=
      char_toNat_ofNat _ (by omega)
    simp only [isWs, e1]
    have h1 : ¬(c.toNat + 32 = 32 ∨ c.toNat + 32 = 9 ∨ c.toNat + 32 = 10 ∨
        c.toNat + 32 = 13 ∨ c.toNat + 32 = 11 ∨ c.toNat + 32 = 12) := by omega
    have h2 : ¬(c.toNat = 32 ∨ c.toNat = 9 ∨ c.toNat = 10 ∨
        c.toNat = 13 ∨ c.toNat = 11 ∨ c.toNat = 12) := by omega
    rw [decide_eq_false h1, decide_eq_false h2]
  · rfl

theorem lowerChar_idem (c : Char) : lowerChar (lowerChar c) = lowerChar c := by
  unfold lowerChar
  split
  · rename_i h
    have e1 : (Char.ofNat (c.toNat + 32)).toNat = c.toNat + 32 :=
      char_toNat_ofNat _ (by omega)
    rw [if_neg (by rw [e1]; omega)]
  · rfl

theorem toLowerCase_idem (s : Str) : toLowerCase (toLowerCase s) = toLowerCase s := by
  simp [toLowerCase, List.map_map, Function.comp_def, lowerChar_idem]

/-! ### Boundary-whitespace lemmas

`headOk l` (resp. `lastOk l`) says the first (resp. last) character of `l`,
when it exists, is not whitespace. A string with both properties is fixed
by `trimStr`; the cleaning pipeline of the registration routes always
produces such strings, which is what makes the stored `normalizedName`
agree with the one-pass formula of the specification. -/

def headOk (l : Str) : Prop := ∀ c, l.head? = some c → isWs c = false

def lastOk (l : Str) : Prop := ∀ c, l.getLast? = some c → isWs c = false

theorem headOk_nil : headOk [] := by
  intro c hc
  simp at hc

theorem lastOk_nil : lastOk [] := by
  intro c hc
  simp at hc

theorem headOk_dropWhile (l : Str) : headOk (l.dropWhile isWs) := by
  induction l with
  | nil => exact headOk_nil
  | cons a t ih =>
    intro c hc
    rw [List.dropWhile_cons] at hc
    by_cases ha : isWs a = true
    · rw [if_pos ha] at hc
      exact ih c hc
    · rw [if_neg ha] at hc
      simp at hc
      rw [← hc]
      simpa using ha

theorem dropWhile_eq_self_of_headOk (l : Str) (h : headOk l) :
    l.dropWhile isWs = l := by
  cases l with
  | nil => rfl
  | cons a t =>
    rw [List.dropWhile_cons, if_neg]
    simp [h a rfl]

theorem headOk_mono {l₁ l₂ : Str} (hp : l₁ <+: l₂) (h : headOk l₂) :
    headOk l₁ := by
  intro c hc
  obtain ⟨t, ht⟩ := hp
  apply h c
  rw [← ht]
  cases l₁ with
  | nil => simp at hc
  | cons a t₁ =>
    simp at hc
    subst hc
    simp

theorem trimStr_pref_dropWhile (s : Str) : trimStr s <+: s.dropWhile isWs := by
  unfold trimStr
  have hs : (s.dropWhile isWs).reverse.dropWhile isWs <:+ (s.dropWhile isWs).reverse :=
    List.dropWhile_suffix _
  have := List.reverse_prefix.mpr hs
  rwa [List.reverse_reverse] at this

theorem headOk_trimStr (s : Str) : headOk (trimStr s) :=
  headOk_mono (trimStr_pref_dropWhile s) (headOk_dropWhile s)

theorem lastOk_trimStr (s : Str) : lastOk (trimStr s) := by
  intro c hc
  unfold trimStr at hc
  rw [List.getLast?_reverse] at hc
  exact headOk_dropWhile _ c hc

theorem trimStr_eq_self (l : Str) (h1 : headOk l) (h2 : lastOk l) :
    trimStr l = l := by
  unfold trimStr
  rw [dropWhile_eq_self_of_headOk l h1]
  have hrev : headOk l.reverse := by
    intro c hc
    rw [List.head?_reverse] at hc
    exact h2 c hc
  rw [dropWhile_eq_self_of_headOk _ hrev, List.reverse_reverse]

theorem collapseWs_ne_nil (l : Str) (h : l ≠ []) : collapseWs l ≠ [] := by
  induction l using collapseWs.induct with
  | case1 => exact absurd rfl h
  | case2 c hc => simp [collapseWs, hc]
  | case3 c hc => simp only [collapseWs]; rw [if_neg hc]; simp
  | case4 c d rest hcd ih =>
    simp only [collapseWs]
    rw [if_pos hcd]
    exact ih (by simp)
  | case5 c d rest hcd ih =>
    simp only [collapseWs]
    rw [if_neg hcd]
    simp

theorem headOk_collapseWs (l : Str) (h : headOk l) : headOk (collapseWs l) := by
  cases l with
  | nil => exact headOk_nil
  | cons a t =>
    have ha : isWs a = false := h a rfl
    cases t with
    | nil =>
      intro c hc
      simp only [collapseWs, ha] at hc
      simp at hc
      rw [← hc]
      exact ha
    | cons b t₂ =>
      intro c hc
      simp only [collapseWs, ha, Bool.false_and] at hc
      rw [if_neg (by simp)] at hc
      simp [ha] at hc
      rw [← hc]
      exact ha

theorem lastOk_collapseWs (l : Str) (h : lastOk l) : lastOk (collapseWs l) := by
  induction l using collapseWs.induct with
  | case1 => exact lastOk_nil
  | case2 c hc =>
    have := h c rfl
    rw [this] at hc
    exact absurd hc (by simp)
  | case3 c hc =>
    simp only [collapseWs]
    rw [if_neg hc]
    intro x hx
    simp at hx
    rw [← hx]
    simpa using hc
  | case4 c d rest hcd ih =>
    simp only [collapseWs]
    rw [if_pos hcd]
    exact ih (fun x hx => h x (by rw [List.getLast?_cons_cons]; exact hx))
  | case5 c d rest hcd ih =>
    simp only [collapseWs]
    rw [if_neg hcd]
    have htail : lastOk (d :: rest) :=
      fun x hx => h x (by rw [List.getLast?_cons_cons]; exact hx)
    have hne : collapseWs (d :: rest) ≠ [] := collapseWs_ne_nil _ (by simp)
    intro x hx
    apply ih htail x
    rw [← hx]
    cases hg : collapseWs (d :: rest) with
    | nil => exact absurd hg hne
    | cons y ys => rw [List.getLast?_cons_cons]

theorem headOk_toLowerCase (l : Str) (h : headOk l) : headOk (toLowerCase l) := by
  intro c hc
  unfold toLowerCase at hc
  rw [List.head?_map] at hc
  cases hh : l.head? with
  | none => rw [hh] at hc; simp at hc
  | some a =>
    rw [hh] at hc
    simp at hc
    rw [← hc, isWs_lowerChar]
    exact h a hh

theorem lastOk_toLowerCase (l : Str) (h : lastOk l) : lastOk (toLowerCase l) := by
  intro c hc
  unfold toLowerCase at hc
  rw [List.getLast?_map] at hc
  cases hh : l.getLast? with
  | none => rw [hh] at hc; simp at hc
  | some a =>
    rw [hh] at hc
    simp at hc
    rw [← hc, isWs_lowerChar]
    exact h a hh

/-- Central normalisation identity: applying the `pre("save")` hook (with the
`lowercase` setter) to an already cleaned display name yields exactly the
one-pass formula `toLowerCase (cleanName raw)` of the specification. -/
theorem hook_on_cleanName (raw : Str) :
    setNormalized (hookNormalize (cleanName raw)) = toLowerCase (cleanName raw) := by
  unfold setNormalized hookNormalize
  have h1 : headOk (cleanName raw) :=
    headOk_collapseWs _ (headOk_trimStr raw)
  have h2 : lastOk (cleanName raw) :=
    lastOk_collapseWs _ (lastOk_trimStr raw)
  rw [trimStr_eq_self _ (headOk_toLowerCase _ h1) (lastOk_toLowerCase _ h2)]
  exact toLowerCase_idem _

/-- Route-level variant: the setter applied to the lowercased clean name is
the clean name lowercased (the hook may be skipped on an empty name). -/
theorem setter_on_lowered (raw : Str) :
    setNormalized (toLowerCase (cleanName raw)) = toLowerCase (cleanName raw) :=
  toLowerCase_idem _

/-! ### Identity collections (refined server variant)

Records of the five Mongoose schemas carrying a `normalizedName` path.
Parent references are the raw id strings held by the documents. -/

structure Campus where
  name : Str
  normalizedName : Str
  address : Str
  email : Str
  password : Str
  logo : Str
deriving DecidableEq

structure District where
  name : Str
  normalizedName : Str
  campusRef : Str
  email : Str
  password : Str
  logo : Str
deriving DecidableEq

structure Community where
  name : Str
  normalizedName : Str
  districtRef : Str
  leader : Str
  leaderPhone : Str
  password : Str
  logo : Str
deriving DecidableEq

structure Cell where
  name : Str
  normalizedName : Str
  campusRef : Str
  districtRef : Str
  communityRef : Str
  address : Str
  leader : Str
  phone : Str
  email : Str
  password : Str
  logo : Str
deriving DecidableEq

structure SuperAdmin where
  name : Str
  normalizedName : Str
  password : Str
deriving DecidableEq

/-! ### The `pre("save")` hooks

Each schema runs `if (this.name) this.normalizedName =
this.name.toLowerCase().trim()` before persisting; the assignment passes
through the `lowercase: true` setter of the path. -/

def campusPreSave (c : Campus) : Campus :=
  if c.name.isEmpty then c
  else { c with normalizedName := setNormalized (hookNormalize c.name) }

def districtPreSave (d : District) : District :=
  if d.name.isEmpty then d
  else { d with normalizedName := setNormalized (hookNormalize d.name) }

def communityPreSave (c : Community) : Community :=
  if c.name.isEmpty then c
  else { c with normalizedName := setNormalized (hookNormalize c.name) }

def cellPreSave (c : Cell) : Cell :=
  if c.name.isEmpty then c
  else { c with normalizedName := setNormalized (hookNormalize c.name) }

def superAdminPreSave (s : SuperAdmin) : SuperAdmin :=
  if s.name.isEmpty then s
  else { s with normalizedName := setNormalized (hookNormalize s.name) }

/-! ### Registration routes (refined variants of `part_000`) -/

inductive RegOutcome (α : Type) where
  | validationError
  | invalidParent
  | conflict
  | ok (record : α)
deriving DecidableEq

/-- Model of the store update around a registration route: a created record
is appended to its collection, any failure leaves the collection as it was. -/
def persist {α : Type} (db : List α) (out : RegOutcome α) : List α :=
  match out with
  | .ok r => db ++ [r]
  | _ => db

/-- Model of `POST /api/campus/register` (refined variant): required-field
check, display-name cleaning, email/password cleaning, duplicate check on
cleaned email OR computed normalised name, then save through the hook. -/
def registerCampus (db : List Campus) (name address email password logoUrl : Str) :
    RegOutcome Campus :=
  if name.isEmpty || address.isEmpty || email.isEmpty || password.isEmpty then
    .validationError
  else
    let displayName := cleanName name
    let nn := toLowerCase displayName
    let email2 := cleanEmail email
    if db.any (fun c => c.email == email2 || c.normalizedName == nn) then .conflict
    else
      .ok (campusPreSave
        { name := displayName, normalizedName := setNormalized nn,
          address := cleanName address, email := email2,
          password := trimStr password, logo := logoUrl })

/-- Model of `POST /api/district/register` (refined variant); `campusIds`
is the set of ids the `Campus.findById` parent check accepts. -/
def registerDistrict (campusIds : List Str) (db : List District)
    (name campusRef email password logoUrl : Str) : RegOutcome District :=
  if name.isEmpty || campusRef.isEmpty || email.isEmpty || password.isEmpty then
    .validationError
  else
    let displayName := cleanName name
    let nn := toLowerCase displayName
    let email2 := cleanEmail email
    if !(campusIds.any (fun i => i == campusRef)) then .invalidParent
    else if db.any (fun d => d.email == email2 || d.normalizedName == nn) then .conflict
    else
      .ok (districtPreSave
        { name := displayName, normalizedName := setNormalized nn,
          campusRef := campusRef, email := email2,
          password := trimStr password, logo := logoUrl })

/-- Model of `POST /api/communities` (refined variant): the duplicate check
probes the normalised name only — the schema has no `email` path. -/
def registerCommunity (db : List Community)
    (name districtRef leader leaderPhone password logoUrl : Str) :
    RegOutcome Community :=
  if name.isEmpty || districtRef.isEmpty || leader.isEmpty ||
      leaderPhone.isEmpty || password.isEmpty then
    .validationError
  else
    let displayName := cleanName name
    let nn := toLowerCase displayName
    if db.any (fun c => c.normalizedName == nn) then .conflict
    else
      .ok (communityPreSave
        { name := displayName, normalizedName := setNormalized nn,
          districtRef := districtRef, leader := cleanName leader,
          leaderPhone := trimStr leaderPhone,
          password := trimStr password, logo := logoUrl })

/-- Model of `POST /api/cell/register` (refined variant): duplicate check on
computed normalised name OR cleaned email; no parent existence check. -/
def registerCell (db : List Cell)
    (name campusRef districtRef communityRef address leader phone email password logoUrl : Str) :
    RegOutcome Cell :=
  if name.isEmpty || campusRef.isEmpty || districtRef.isEmpty ||
      communityRef.isEmpty || address.isEmpty || leader.isEmpty ||
      phone.isEmpty || email.isEmpty || password.isEmpty then
    .validationError
  else
    let displayName := cleanName name
    let nn := toLowerCase displayName
    let email2 := cleanEmail email
    if db.any (fun c => c.normalizedName == nn || c.email == email2) then .conflict
    else
      .ok (cellPreSave
        { name := displayName, normalizedName := setNormalized nn,
          campusRef := campusRef, districtRef := districtRef,
          communityRef := communityRef, address := trimStr address,
          leader := trimStr leader, phone := trimStr phone,
          email := email2, password := password, logo := logoUrl })

/-- Model of `POST /superadmin/register` (refined variant): duplicate check
on the computed normalised name; the password is stored untouched. -/
def registerSuperAdmin (db : List SuperAdmin) (name password : Str) :
    RegOutcome SuperAdmin :=
  if name.isEmpty || password.isEmpty then .validationError
  else
    let displayName := cleanName name
    let nn := toLowerCase displayName
    if db.any (fun s => s.normalizedName == nn) then .conflict
    else
      .ok (superAdminPreSave
        { name := displayName, normalizedName := setNormalized nn,
          password := password })

/-! ### The `/api/universal-login2` cascade -/

inductive Role where
  | campus
  | district
  | community
  | cell
  | superadmin
deriving DecidableEq

inductive UserRec where
  | campus (c : Campus)
  | district (d : District)
  | community (c : Community)
  | cell (c : Cell)
  | superadmin (s : SuperAdmin)
deriving DecidableEq

def UserRec.password : UserRec → Str
  | .campus c => c.password
  | .district d => d.password
  | .community c => c.password
  | .cell c => c.password
  | .superadmin s => s.password

structure DB where
  campuses : List Campus
  districts : List District
  communities : List Community
  cells : List Cell
  superAdmins : List SuperAdmin
deriving DecidableEq

/-- Campus probe of the cascade: `email` equals the (already normalised)
identifier OR `normalizedName` equals it. -/
def campusMatches (idf : Str) (c : Campus) : Bool :=
  c.email == idf || c.normalizedName == idf

def districtMatches (idf : Str) (d : District) : Bool :=
  d.email == idf || d.normalizedName == idf

/-- Community probe: the route also queries an `email` clause, but the
Community schema has no `email` path, so that clause matches no stored
document; only the `normalizedName` clause can select a record. -/
def communityMatches (idf : Str) (c : Community) : Bool :=
  c.normalizedName == idf

def cellMatches (idf : Str) (c : Cell) : Bool :=
  c.email == idf || c.normalizedName == idf

/-- SuperAdmin probe: the route queries `normalizedName` only. -/
def superAdminMatches (idf : Str) (s : SuperAdmin) : Bool :=
  s.normalizedName == idf

/-- Probe phase of `/api/universal-login2` on an already normalised
identifier: Campus, then District, Community, Cell, SuperAdmin; the first
match wins. `List.find?` models `findOne` in insertion order. -/
def resolveNormalized (db : DB) (idf : Str) : Option (Role × UserRec) :=
  match db.campuses.find? (campusMatches idf) with
  | some c => some (.campus, .campus c)
  | none =>
    match db.districts.find? (districtMatches idf) with
    | some d => some (.district, .district d)
    | none =>
      match db.communities.find? (communityMatches idf) with
      | some c => some (.community, .community c)
      | none =>
        match db.cells.find? (cellMatches idf) with
        | some c => some (.cell, .cell c)
        | none =>
          match db.superAdmins.find? (superAdminMatches idf) with
          | some s => some (.superadmin, .superadmin s)
          | none => none

/-- Cascade resolver of `/api/universal-login2`: the raw identifier is
trimmed and lowercased before any collection is probed. -/
def resolveUser2 (db : DB) (identifier : Str) : Option (Role × UserRec) :=
  resolveNormalized db (normalizeIdentifier identifier)

inductive LoginOutcome where
  | validationError
  | notFound
  | invalidPassword
  | success (role : Role) (user : UserRec)
deriving DecidableEq

/-- Model of `POST /api/universal-login2`: field check, cascade resolution,
then exact plaintext password comparison. -/
def universalLogin2 (db : DB) (identifier password : Str) : LoginOutcome :=
  if identifier.isEmpty || password.isEmpty then .validationError
  else
    match resolveUser2 db identifier with
    | none => .notFound
    | some (role, user) =>
      if password == user.password then .success role user else .invalidPassword

/-! ### Media posts, upload and like toggle (`server.js`) -/

structure Image where
  url : Str
  type : Str
  comments : Str
  likes : Int
  likedBy : List Str
  uploaderId : Str
  uploaderRole : Str
  uploaderName : Str
  uploaderLogo : Str
deriving DecidableEq

structure UploadFile where
  path : Str
  mimetype : Str
deriving DecidableEq

inductive UploadOutcome where
  | validationError
  | ok (files : List Image)
deriving DecidableEq

/-- Document built for one uploaded file: video exactly when the declared
content type starts with `video`, shared caption, zero likes. -/
def mkImage (comment uploaderId uploaderRole uploaderName uploaderLogo : Str)
    (f : UploadFile) : Image :=
  { url := f.path,
    type := if "video".toList.isPrefixOf f.mimetype then "video".toList else "image".toList,
    comments := comment, likes := 0, likedBy := [],
    uploaderId := uploaderId, uploaderRole := uploaderRole,
    uploaderName := uploaderName, uploaderLogo := uploaderLogo }

/-- Model of `POST /api/upload`: uploader metadata is required, then every
file of the request becomes one saved document. -/
def uploadRoute (files : List UploadFile)
    (comment uploaderId uploaderRole uploaderName uploaderLogo : Str) : UploadOutcome :=
  if uploaderId.isEmpty || uploaderRole.isEmpty || uploaderName.isEmpty ||
      uploaderLogo.isEmpty then
    .validationError
  else .ok (files.map (mkImage comment uploaderId uploaderRole uploaderName uploaderLogo))

structure LikeResponse where
  likes : Int
  liked : Bool
deriving DecidableEq

/-- Model of the like toggle of `POST /api/uploads/:id/like` (and of the
identical `POST /api/:id/like` variant): if the device already appears in
`likedBy` it is removed and `likes` is decremented with a floor at 0, else
it is appended and `likes` incremented; the response carries the stored
counter and the new liked state. -/
def likeToggle (img : Image) (deviceId : Str) : Image × LikeResponse :=
  let already := decide (deviceId ∈ img.likedBy)
  let img2 :=
    if already then
      { img with likes := max 0 (img.likes - 1),
                 likedBy := img.likedBy.filter (fun d => !(d == deviceId)) }
    else
      { img with likes := img.likes + 1, likedBy := img.likedBy ++ [deviceId] }
  (img2, { likes := img2.likes, liked := !already })

/-- Post-toggle document state. -/
def toggleLike (img : Image) (deviceId : Str) : Image :=
  (likeToggle img deviceId).1

/-- Cardinality of a device list viewed as a set of device identifiers. -/
def deviceCard (l : List Str) : Nat := l.dedup.length

/-! ### Helper lemmas about the registration routes -/

theorem registerCampus_ok (db : List Campus) (name address email password logo : Str)
    (rec : Campus) (h : registerCampus db name address email password logo = .ok rec) :
    rec.name = cleanName name ∧ rec.normalizedName = toLowerCase (cleanName name) := by
  simp only [registerCampus] at h
  split at h
  · exact absurd h (by simp)
  · split at h
    · exact absurd h (by simp)
    · rw [RegOutcome.ok.injEq] at h
      subst h
      unfold campusPreSave
      split
      · exact ⟨rfl, setter_on_lowered name⟩
      · exact ⟨rfl, hook_on_cleanName name⟩

theorem registerDistrict_ok (ids : List Str) (db : List District)
    (name campusRef email password logo : Str) (rec : District)
    (h : registerDistrict ids db name campusRef email password logo = .ok rec) :
    rec.name = cleanName name ∧ rec.normalizedName = toLowerCase (cleanName name) := by
  simp only [registerDistrict] at h
  split at h
  · exact absurd h (by simp)
  · split at h
    · exact absurd h (by simp)
    · split at h
      · exact absurd h (by simp)
      · rw [RegOutcome.ok.injEq] at h
        subst h
        unfold districtPreSave
        split
        · exact ⟨rfl, setter_on_lowered name⟩
        · exact ⟨rfl, hook_on_cleanName name⟩

theorem registerCommunity_ok (db : List Community)
    (name districtRef leader leaderPhone password logo : Str) (rec : Community)
    (h : registerCommunity db name districtRef leader leaderPhone password logo = .ok rec) :
    rec.name = cleanName name ∧ rec.normalizedName = toLowerCase (cleanName name) := by
  simp only [registerCommunity] at h
  split at h
  · exact absurd h (by simp)
  · split at h
    · exact absurd h (by simp)
    · rw [RegOutcome.ok.injEq] at h
      subst h
      unfold communityPreSave
      split
      · exact ⟨rfl, setter_on_lowered name⟩
      · exact ⟨rfl, hook_on_cleanName name⟩

theorem registerCell_ok (db : List Cell)
    (name campusRef districtRef communityRef address leader phone email password logo : Str)
    (rec : Cell)
    (h : registerCell db name campusRef districtRef communityRef address leader phone
      email password logo = .ok rec) :
    rec.name = cleanName name ∧ rec.normalizedName = toLowerCase (cleanName name) := by
  simp only [registerCell] at h
  split at h
  · exact absurd h (by simp)
  · split at h
    · exact absurd h (by simp)
    · rw [RegOutcome.ok.injEq] at h
      subst h
      unfold cellPreSave
      split
      · exact ⟨rfl, setter_on_lowered name⟩
      · exact ⟨rfl, hook_on_cleanName name⟩

theorem registerSuperAdmin_ok (db : List SuperAdmin) (name password : Str)
    (rec : SuperAdmin) (h : registerSuperAdmin db name password = .ok rec) :
    rec.name = cleanName name ∧ rec.normalizedName = toLowerCase (cleanName name) := by
  simp only [registerSuperAdmin] at h
  split at h
  · exact absurd h (by simp)
  · split at h
    · exact absurd h (by simp)
    · rw [RegOutcome.ok.injEq] at h
      subst h
      unfold superAdminPreSave
      split
      · exact ⟨rfl, setter_on_lowered name⟩
      · exact ⟨rfl, hook_on_cleanName name⟩

/-! ### Claim C1 -/

/-- C1: for every valid registration input, the record persisted by any of
the five registration endpoints stores `normalizedName` equal to the
lowercase of the whitespace-trimmed, internal-whitespace-collapsed display
name, i.e. `toLowerCase (collapseWs (trimStr name))`; equivalently, the
lowercase of the stored display name. -/
theorem registration_normalizedName_formula :
    (∀ db name address email password logo rec,
      registerCampus db name address email password logo = .ok rec →
        rec.normalizedName = toLowerCase (cleanName name) ∧
        rec.normalizedName = toLowerCase rec.name) ∧
    (∀ ids db name campusRef email password logo rec,
      registerDistrict ids db name campusRef email password logo = .ok rec →
        rec.normalizedName = toLowerCase (cleanName name) ∧
        rec.normalizedName = toLowerCase rec.name) ∧
    (∀ db name districtRef leader leaderPhone password logo rec,
      registerCommunity db name districtRef leader leaderPhone password logo = .ok rec →
        rec.normalizedName = toLowerCase (cleanName name) ∧
        rec.normalizedName = toLowerCase rec.name) ∧
    (∀ db name campusRef districtRef communityRef address leader phone email password logo rec,
      registerCell db name campusRef districtRef communityRef address leader phone
        email password logo = .ok rec →
        rec.normalizedName = toLowerCase (cleanName name) ∧
        rec.normalizedName = toLowerCase rec.name) ∧
    (∀ db name password rec,
      registerSuperAdmin db name password = .ok rec →
        rec.normalizedName = toLowerCase (cleanName name) ∧
        rec.normalizedName = toLowerCase rec.name) := by
  refine ⟨?_, ?_, ?_, ?_, ?_⟩
  · intro db name address email password logo rec h
    obtain ⟨h1, h2⟩ := registerCampus_ok db name address email password logo rec h
    exact ⟨h2, by rw [h1]; exact h2⟩
  · intro ids db name campusRef email password logo rec h
    obtain ⟨h1, h2⟩ := registerDistrict_ok ids db name campusRef email password logo rec h
    exact ⟨h2, by rw [h1]; exact h2⟩
  · intro db name districtRef leader leaderPhone password logo rec h
    obtain ⟨h1, h2⟩ :=
      registerCommunity_ok db name districtRef leader leaderPhone password logo rec h
    exact ⟨h2, by rw [h1]; exact h2⟩
  · intro db name campusRef districtRef communityRef address leader phone email password logo rec h
    obtain ⟨h1, h2⟩ := registerCell_ok db name campusRef districtRef communityRef address
      leader phone email password logo rec h
    exact ⟨h2, by rw [h1]; exact h2⟩
  · intro db name password rec h
    obtain ⟨h1, h2⟩ := registerSuperAdmin_ok db name password rec h
    exact ⟨h2, by rw [h1]; exact h2⟩

/-- Concrete campus produced by registering the display name
`"Grace  Campus"` (doubled internal space) into an empty collection. -/
def campusSample : Campus :=
  { name := "Grace Campus".toList, normalizedName := "grace campus".toList,
    address := "12 Road".toList, email := "g@x.com".toList,
    password := "pw".toList, logo := [] }

/-- Witness for C1: the campus registration of `"Grace  Campus"` into an
empty collection persists `normalizedName = "grace campus"`. -/
theorem registration_normalizedName_formula_witness :
    campusSample.normalizedName = toLowerCase (cleanName ("Grace  Campus".toList)) ∧
    campusSample.normalizedName = toLowerCase campusSample.name :=
  registration_normalizedName_formula.1 [] ("Grace  Campus".toList) ("12 Road".toList)
    ("G@x.com ".toList) (" pw".toList) [] campusSample (by decide)

/-! ### Claim C3 -/

/-- C3: in every collection, registering a second record that duplicates an
existing record's (cleaned) email — for the collections that store an email
— or whose computed normalised name duplicates an existing record's
normalised name is rejected as a conflict, and the collection is left
unchanged. (Community and SuperAdmin carry no email, so only the
normalised-name clause applies to them; the district route additionally
requires its parent campus id to exist, which precedes the duplicate
check.) -/
theorem registration_conflict :
    (∀ db name address email password logo,
      name ≠ [] → address ≠ [] → email ≠ [] → password ≠ [] →
      (∃ c ∈ db, c.email = cleanEmail email ∨
        c.normalizedName = toLowerCase (cleanName name)) →
      registerCampus db name address email password logo = .conflict ∧
      persist db (registerCampus db name address email password logo) = db) ∧
    (∀ ids db name campusRef email password logo,
      name ≠ [] → campusRef ≠ [] → email ≠ [] → password ≠ [] →
      campusRef ∈ ids →
      (∃ d ∈ db, d.email = cleanEmail email ∨
        d.normalizedName = toLowerCase (cleanName name)) →
      registerDistrict ids db name campusRef email password logo = .conflict ∧
      persist db (registerDistrict ids db name campusRef email password logo) = db) ∧
    (∀ db name districtRef leader leaderPhone password logo,
      name ≠ [] → districtRef ≠ [] → leader ≠ [] → leaderPhone ≠ [] → password ≠ [] →
      (∃ c ∈ db, c.normalizedName = toLowerCase (cleanName name)) →
      registerCommunity db name districtRef leader leaderPhone password logo = .conflict ∧
      persist db (registerCommunity db name districtRef leader leaderPhone password logo) = db) ∧
    (∀ db name campusRef districtRef communityRef address leader phone email password logo,
      name ≠ [] → campusRef ≠ [] → districtRef ≠ [] → communityRef ≠ [] → address ≠ [] →
      leader ≠ [] → phone ≠ [] → email ≠ [] → password ≠ [] →
      (∃ c ∈ db, c.normalizedName = toLowerCase (cleanName name) ∨
        c.email = cleanEmail email) →
      registerCell db name campusRef districtRef communityRef address leader phone
        email password logo = .conflict ∧
      persist db (registerCell db name campusRef districtRef communityRef address leader
        phone email password logo) = db) ∧
    (∀ db name password,
      name ≠ [] → password ≠ [] →
      (∃ s ∈ db, s.normalizedName = toLowerCase (cleanName name)) →
      registerSuperAdmin db name password = .conflict ∧
      persist db (registerSuperAdmin db name password) = db) := by
  refine ⟨?_, ?_, ?_, ?_, ?_⟩
  · intro db name address email password logo h1 h2 h3 h4 hdup
    have hany : (db.any fun c => c.email == cleanEmail email ||
        c.normalizedName == toLowerCase (cleanName name)) = true := by
      simp only [List.any_eq_true, Bool.or_eq_true, beq_iff_eq]
      exact hdup
    have hreg : registerCampus db name address email password logo = .conflict := by
      simp only [registerCampus]
      rw [if_neg (by simp [h1, h2, h3, h4]), if_pos hany]
    exact ⟨hreg, by rw [hreg]; rfl⟩
  · intro ids db name campusRef email password logo h1 h2 h3 h4 hparent hdup
    have hany : (db.any fun d => d.email == cleanEmail email ||
        d.normalizedName == toLowerCase (cleanName name)) = true := by
      simp only [List.any_eq_true, Bool.or_eq_true, beq_iff_eq]
      exact hdup
    have hpar : (ids.any fun i => i == campusRef) = true := by
      simp only [List.any_eq_true, beq_iff_eq]
      exact ⟨campusRef, hparent, rfl⟩
    have hreg : registerDistrict ids db name campusRef email password logo = .conflict := by
      simp only [registerDistrict]
      rw [if_neg (by simp [h1, h2, h3, h4]), hpar]
      rw [if_neg (by simp), if_pos hany]
    exact ⟨hreg, by rw [hreg]; rfl⟩
  · intro db name districtRef leader leaderPhone password logo h1 h2 h3 h4 h5 hdup
    have hany : (db.any fun c => c.normalizedName == toLowerCase (cleanName name)) = true := by
      simp only [List.any_eq_true, beq_iff_eq]
      exact hdup
    have hreg : registerCommunity db name districtRef leader leaderPhone password logo
        = .conflict := by
      simp only [registerCommunity]
      rw [if_neg (by simp [h1, h2, h3, h4, h5]), if_pos hany]
    exact ⟨hreg, by rw [hreg]; rfl⟩
  · intro db name campusRef districtRef communityRef address leader phone email password logo
      h1 h2 h3 h4 h5 h6 h7 h8 h9 hdup
    have hany : (db.any fun c => c.normalizedName == toLowerCase (cleanName name) ||
        c.email == cleanEmail email) = true := by
      simp only [List.any_eq_true, Bool.or_eq_true, beq_iff_eq]
      exact hdup
    have hreg : registerCell db name campusRef districtRef communityRef address leader phone
        email password logo = .conflict := by
      simp only [registerCell]
      rw [if_neg (by simp [h1, h2, h3, h4, h5, h6, h7, h8, h9]), if_pos hany]
    exact ⟨hreg, by rw [hreg]; rfl⟩
  · intro db name password h1 h2 hdup
    have hany : (db.any fun s => s.normalizedName == toLowerCase (cleanName name)) = true := by
      simp only [List.any_eq_true, beq_iff_eq]
      exact hdup
    have hreg : registerSuperAdmin db name password = .conflict := by
      simp only [registerSuperAdmin]
      rw [if_neg (by simp [h1, h2]), if_pos hany]
    exact ⟨hreg, by rw [hreg]; rfl⟩

/-- Witness for C3: with `campusSample` already stored, registering
`" GRACE  campus "` (same normalised name, different email) is rejected as
a conflict and the collection is unchanged. -/
theorem registration_conflict_witness :
    registerCampus [campusSample] (" GRACE  campus ".toList) ("1 Ave".toList)
      ("other@x.com".toList) ("pw2".toList) [] = .conflict ∧
    persist [campusSample] (registerCampus [campusSample] (" GRACE  campus ".toList)
      ("1 Ave".toList) ("other@x.com".toList) ("pw2".toList) []) = [campusSample] :=
  registration_conflict.1 [campusSample] (" GRACE  campus ".toList) ("1 Ave".toList)
    ("other@x.com".toList) ("pw2".toList) [] (by decide) (by decide) (by decide) (by decide)
    (by decide)

/-! ### Claim C2 -/

/-- C2: the cascade probes Campus before District (and the rest): whenever a
campus record and a district record share a normalised name and the login
identifier normalises to that name, the resolver returns a matching record
of the campus collection and reports role `campus`. -/
theorem cascade_campus_beats_district (db : DB) (ident : Str) (c : Campus) (d : District)
    (hc : c ∈ db.campuses) (hd : d ∈ db.districts)
    (hshare : d.normalizedName = c.normalizedName)
    (hident : normalizeIdentifier ident = c.normalizedName) :
    ∃ c2 ∈ db.campuses, campusMatches (normalizeIdentifier ident) c2 = true ∧
      resolveUser2 db ident = some (.campus, .campus c2) := by
  have hm : campusMatches (normalizeIdentifier ident) c = true := by
    simp [campusMatches, hident]
  have hsome : (db.campuses.find? (campusMatches (normalizeIdentifier ident))).isSome = true :=
    List.find?_isSome.mpr ⟨c, hc, hm⟩
  cases hf : db.campuses.find? (campusMatches (normalizeIdentifier ident)) with
  | none => rw [hf] at hsome; simp at hsome
  | some c2 =>
    refine ⟨c2, List.mem_of_find?_eq_some hf, List.find?_some hf, ?_⟩
    unfold resolveUser2 resolveNormalized
    rw [hf]

/-- District sharing the normalised name `"grace campus"` with
`campusSample`. -/
def districtGrace : District :=
  { name := "GRACE CAMPUS".toList, normalizedName := "grace campus".toList,
    campusRef := "c1".toList, email := "d@x.com".toList,
    password := "dp".toList, logo := [] }

def dbGrace : DB :=
  { campuses := [campusSample], districts := [districtGrace],
    communities := [], cells := [], superAdmins := [] }

/-- Witness for C2: with `campusSample` and `districtGrace` both normalising
to `"grace campus"`, the identifier `"Grace Campus "` resolves to the
campus record with role `campus`. -/
theorem cascade_campus_beats_district_witness :
    resolveUser2 dbGrace ("Grace Campus ".toList) = some (.campus, .campus campusSample) := by
  obtain ⟨c2, hmem, _, hres⟩ :=
    cascade_campus_beats_district dbGrace ("Grace Campus ".toList) campusSample districtGrace
      (by decide) (by decide) (by decide) (by decide)
  have hc2 : c2 = campusSample := by simpa [dbGrace] using hmem
  rw [hres, hc2]

/-! ### Claim C5 -/

/-- C5: for every login request with both fields supplied, the outcome of
`/api/universal-login2` is exactly one of: not-found when the cascade finds
no record, invalid-password when it finds one whose stored password is not
string-equal to the supplied one, and success otherwise. -/
theorem login2_trichotomy (db : DB) (ident password : Str)
    (hident : ident ≠ []) (hpw : password ≠ []) :
    (universalLogin2 db ident password = .notFound ↔ resolveUser2 db ident = none) ∧
    (universalLogin2 db ident password = .invalidPassword ↔
      ∃ ru, resolveUser2 db ident = some ru ∧ password ≠ ru.2.password) ∧
    ((∃ role user, universalLogin2 db ident password = .success role user) ↔
      ∃ ru, resolveUser2 db ident = some ru ∧ password = ru.2.password) := by
  unfold universalLogin2
  rw [if_neg (by simp [hident, hpw])]
  cases hr : resolveUser2 db ident with
  | none => simp
  | some ru =>
    obtain ⟨role, user⟩ := ru
    by_cases hp : password = user.password
    · subst hp
      simp
    · simp [hp]

/-- Witness for C5: on `dbGrace`, an identifier no collection matches ends
in the not-found outcome, by the trichotomy. -/
theorem login2_trichotomy_witness :
    universalLogin2 dbGrace ("nobody".toList) ("x".toList) = .notFound :=
  (login2_trichotomy dbGrace ("nobody".toList) ("x".toList) (by decide) (by decide)).1.mpr
    (by decide)

/-! ### Claim C4 -/

/-- Match predicate modelled from the specification's words for claim C4
(for comparison with the code's `campusMatches`): the record's email equals
the RAW supplied identifier OR its normalised name equals the normalised
identifier. -/
def specCampusMatches (identifier : Str) (c : Campus) : Bool :=
  c.email == identifier || c.normalizedName == normalizeIdentifier identifier

/-- Campus storing a mixed-case email, exercising the divergence between
the raw-identifier reading and the code. -/
def campusMixed : Campus :=
  { name := "Main".toList, normalizedName := "main".toList,
    address := "1 Rd".toList, email := "Admin@Hub.COM".toList,
    password := "pw".toList, logo := [] }

def dbMixed : DB :=
  { campuses := [campusMixed], districts := [], communities := [],
    cells := [], superAdmins := [] }

/-- Counterexample for C4: on a stored mixed-case email, supplying exactly
that email as identifier satisfies the claim's raw-equality clause, yet the
code — which lowercases the identifier before every comparison, the email
clause included — matches nothing and the cascade resolves to no record. -/
theorem cascade_raw_email_counterexample :
    specCampusMatches ("Admin@Hub.COM".toList) campusMixed = true ∧
    campusMatches (normalizeIdentifier ("Admin@Hub.COM".toList)) campusMixed = false ∧
    resolveUser2 dbMixed ("Admin@Hub.COM".toList) = none := by decide

theorem resolveNormalized_isSome (db : DB) (idf : Str) :
    (resolveNormalized db idf).isSome = true ↔
      ((db.campuses.find? (campusMatches idf)).isSome = true ∨
       (db.districts.find? (districtMatches idf)).isSome = true ∨
       (db.communities.find? (communityMatches idf)).isSome = true ∨
       (db.cells.find? (cellMatches idf)).isSome = true ∨
       (db.superAdmins.find? (superAdminMatches idf)).isSome = true) := by
  unfold resolveNormalized
  cases h1 : db.campuses.find? (campusMatches idf) with
  | some c => simp
  | none =>
    cases h2 : db.districts.find? (districtMatches idf) with
    | some d => simp
    | none =>
      cases h3 : db.communities.find? (communityMatches idf) with
      | some c => simp
      | none =>
        cases h4 : db.cells.find? (cellMatches idf) with
        | some c => simp
        | none =>
          cases h5 : db.superAdmins.find? (superAdminMatches idf) with
          | some s => simp
          | none => simp

/-- C4 (amended): the cascade resolver matches a record exactly when some
record's email — on the collections that store one — or normalised name
equals the trimmed, lowercased identifier; in particular an email match
succeeds when the supplied identifier differs from the stored lowercase
email only by case or surrounding whitespace. -/
theorem cascade_match_characterization (db : DB) (ident : Str) :
    (resolveUser2 db ident).isSome = true ↔
      ((∃ c ∈ db.campuses,
          c.email = normalizeIdentifier ident ∨
          c.normalizedName = normalizeIdentifier ident) ∨
       (∃ d ∈ db.districts,
          d.email = normalizeIdentifier ident ∨
          d.normalizedName = normalizeIdentifier ident) ∨
       (∃ c ∈ db.communities, c.normalizedName = normalizeIdentifier ident) ∨
       (∃ c ∈ db.cells,
          c.email = normalizeIdentifier ident ∨
          c.normalizedName = normalizeIdentifier ident) ∨
       (∃ s ∈ db.superAdmins, s.normalizedName = normalizeIdentifier ident)) := by
  rw [resolveUser2, resolveNormalized_isSome]
  simp only [List.find?_isSome, campusMatches, districtMatches, communityMatches,
    cellMatches, superAdminMatches, Bool.or_eq_true, beq_iff_eq]

/-! ### Helper lemmas about device sets and the toggle -/

theorem deviceCard_eq_card (l : List Str) : deviceCard l = l.toFinset.card :=
  (List.card_toFinset l).symm

theorem deviceCard_filter_mem (l : List Str) (d : Str) (hd : d ∈ l) :
    deviceCard (l.filter (fun x => !(x == d))) = deviceCard l - 1 := by
  rw [deviceCard_eq_card, deviceCard_eq_card, List.toFinset_filter]
  have he : (Finset.filter (fun x => (!(x == d)) = true) l.toFinset)
      = l.toFinset.erase d := by
    rw [← Finset.filter_ne']
    apply Finset.filter_congr
    intro x _
    simp
  rw [he, Finset.card_erase_of_mem (List.mem_toFinset.mpr hd)]

theorem deviceCard_append_not_mem (l : List Str) (d : Str) (hd : d ∉ l) :
    deviceCard (l ++ [d]) = deviceCard l + 1 := by
  rw [deviceCard_eq_card, deviceCard_eq_card, List.toFinset_append]
  have he : l.toFinset ∪ ([d] : List Str).toFinset = insert d l.toFinset := by
    simp [Finset.union_comm, Finset.insert_eq]
  rw [he, Finset.card_insert_of_not_mem (fun hmem => hd (List.mem_toFinset.mp hmem))]

theorem one_le_deviceCard_of_mem (l : List Str) (d : Str) (hd : d ∈ l) :
    1 ≤ deviceCard l := by
  rw [deviceCard_eq_card]
  exact Finset.card_pos.mpr ⟨d, List.mem_toFinset.mpr hd⟩

theorem filter_append_self (l : List Str) (d : Str) (hd : d ∉ l) :
    (l ++ [d]).filter (fun x => !(x == d)) = l := by
  rw [List.filter_append]
  have hl : l.filter (fun x => !(x == d)) = l := by
    apply List.filter_eq_self.mpr
    intro x hx
    simp
    intro hxd
    exact hd (hxd ▸ hx)
  have hr : ([d] : List Str).filter (fun x => !(x == d)) = [] := by simp
  rw [hl, hr, List.append_nil]

/-- Toggle on a device that is currently recorded: the device's entries are
filtered out and the counter falls by one, floored at 0. -/
theorem toggleLike_mem (img : Image) (dev : Str) (hd : dev ∈ img.likedBy) :
    (toggleLike img dev).likes = max 0 (img.likes - 1) ∧
    (toggleLike img dev).likedBy = img.likedBy.filter (fun x => !(x == dev)) := by
  simp [toggleLike, likeToggle, hd]

/-- Toggle on a device that is not recorded: the device is appended and the
counter rises by one. -/
theorem toggleLike_not_mem (img : Image) (dev : Str) (hd : dev ∉ img.likedBy) :
    (toggleLike img dev).likes = img.likes + 1 ∧
    (toggleLike img dev).likedBy = img.likedBy ++ [dev] := by
  simp [toggleLike, likeToggle, hd]

theorem max_floor (x : Int) (h : 0 ≤ x) : max 0 x = x := max_eq_right h

/-! ### Claim C6 -/

/-- C6: the predicate `likes = |likedBy|` (device-set cardinality) is
established by the upload route on every created post and preserved by
every like toggle. -/
theorem likeCount_matches_devices :
    (∀ files comment uId uRole uName uLogo imgs,
      uploadRoute files comment uId uRole uName uLogo = .ok imgs →
      ∀ img ∈ imgs, img.likes = (deviceCard img.likedBy : Int)) ∧
    (∀ img dev, img.likes = (deviceCard img.likedBy : Int) →
      (toggleLike img dev).likes = (deviceCard (toggleLike img dev).likedBy : Int)) := by
  constructor
  · intro files comment uId uRole uName uLogo imgs h img hmem
    simp only [uploadRoute] at h
    split at h
    · exact absurd h (by simp)
    · rw [UploadOutcome.ok.injEq] at h
      subst h
      rw [List.mem_map] at hmem
      obtain ⟨f, _, hf⟩ := hmem
      subst hf
      simp [mkImage, deviceCard]
  · intro img dev hinv
    by_cases hd : dev ∈ img.likedBy
    · obtain ⟨hlikes, hdevs⟩ := toggleLike_mem img dev hd
      have h1 := one_le_deviceCard_of_mem _ _ hd
      rw [hlikes, hdevs, deviceCard_filter_mem _ _ hd, hinv,
        max_floor _ (by omega), Nat.cast_sub h1]
      rfl
    · obtain ⟨hlikes, hdevs⟩ := toggleLike_not_mem img dev hd
      rw [hlikes, hdevs, deviceCard_append_not_mem _ _ hd, hinv]
      push_cast
      rfl

/-- Image as the upload route creates it from one image file with an empty
caption. -/
def imgFresh : Image :=
  { url := "u".toList, type := "image".toList, comments := [], likes := 0,
    likedBy := [], uploaderId := "i".toList, uploaderRole := "campus".toList,
    uploaderName := "n".toList, uploaderLogo := "l".toList }

/-- Image with one like recorded for device `a`; the invariant holds. -/
def imgLiked : Image :=
  { url := "u".toList, type := "image".toList, comments := [], likes := 1,
    likedBy := [['a']], uploaderId := "i".toList, uploaderRole := "campus".toList,
    uploaderName := "n".toList, uploaderLogo := "l".toList }

/-- Witness for C6: a freshly uploaded post satisfies the invariant, and a
toggle by a new device preserves it on `imgLiked`. -/
theorem likeCount_matches_devices_witness :
    imgFresh.likes = (deviceCard imgFresh.likedBy : Int) ∧
    (toggleLike imgLiked ['b']).likes = (deviceCard (toggleLike imgLiked ['b']).likedBy : Int) := by
  constructor
  · exact likeCount_matches_devices.1 [⟨"u".toList, "image/png".toList⟩] [] ("i".toList)
      ("campus".toList) ("n".toList) ("l".toList) [imgFresh] (by decide) imgFresh (by decide)
  · exact likeCount_matches_devices.2 imgLiked ['b'] (by decide)

/-! ### Claim C7 -/

/-- Post whose stored counter disagrees with its device list: zero likes
but one recorded device. Such a state never arises through the upload and
toggle routes, but the claim quantifies over every post state. -/
def imgSkewed : Image :=
  { url := [], type := "image".toList, comments := [], likes := 0,
    likedBy := [['d']], uploaderId := [], uploaderRole := [],
    uploaderName := [], uploaderLogo := [] }

/-- Counterexample for C7: on a post with `likes = 0` while the device is
recorded in `likedBy`, toggling the same device twice yields `likes = 1`,
not the original 0 — the decrement floor at 0 loses one count, so the
double toggle is not the identity on every post state. -/
theorem double_toggle_counterexample :
    (toggleLike (toggleLike imgSkewed ['d']) ['d']).likes ≠ imgSkewed.likes := by decide

/-- C7 (amended): on every post whose stored count equals its device-set
cardinality — the invariant every post created by upload and mutated only
by toggles satisfies — toggling the same device twice restores the original
`likes`, and the device is a member afterwards exactly when it was
originally. -/
theorem double_toggle_inverse (img : Image) (dev : Str)
    (hinv : img.likes = (deviceCard img.likedBy : Int)) :
    (toggleLike (toggleLike img dev) dev).likes = img.likes ∧
    (dev ∈ (toggleLike (toggleLike img dev) dev).likedBy ↔ dev ∈ img.likedBy) := by
  by_cases hd : dev ∈ img.likedBy
  · have h1 := one_le_deviceCard_of_mem _ _ hd
    obtain ⟨hlikes1, hdevs1⟩ := toggleLike_mem img dev hd
    have hnot : dev ∉ (toggleLike img dev).likedBy := by
      rw [hdevs1]
      simp [List.mem_filter]
    obtain ⟨hlikes2, hdevs2⟩ := toggleLike_not_mem (toggleLike img dev) dev hnot
    constructor
    · rw [hlikes2, hlikes1, hinv, max_floor _ (by omega)]
      omega
    · rw [hdevs2]
      simp [hd]
  · have hge : (0 : Int) ≤ img.likes := by
      rw [hinv]
      omega
    obtain ⟨hlikes1, hdevs1⟩ := toggleLike_not_mem img dev hd
    have hmem : dev ∈ (toggleLike img dev).likedBy := by
      rw [hdevs1]
      simp
    obtain ⟨hlikes2, hdevs2⟩ := toggleLike_mem (toggleLike img dev) dev hmem
    constructor
    · rw [hlikes2, hlikes1]
      rw [Int.add_sub_cancel, max_floor _ hge]
    · rw [hdevs2, hdevs1, filter_append_self _ _ hd]

/-- Witness for C7 (amended): on `imgLiked` (one like, one device, so the
invariant holds) toggling device `a` twice restores one like and keeps the
device recorded. -/
theorem double_toggle_inverse_witness :
    (toggleLike (toggleLike imgLiked ['a']) ['a']).likes = imgLiked.likes ∧
    (['a'] ∈ (toggleLike (toggleLike imgLiked ['a']) ['a']).likedBy ↔ ['a'] ∈ imgLiked.likedBy) :=
  double_toggle_inverse imgLiked ['a'] (by decide)

/-! ### Claim C8 -/

/-- C8: a successful upload of N files with one shared caption creates
exactly N posts; each carries the shared caption, zero likes and an empty
device list, and the i-th post is a video exactly when the i-th file's
declared content type starts with `video`, else an image. -/
theorem upload_creates_posts (files : List UploadFile)
    (comment uId uRole uName uLogo : Str) (imgs : List Image)
    (h : uploadRoute files comment uId uRole uName uLogo = .ok imgs) :
    imgs.length = files.length ∧
    (∀ img ∈ imgs, img.comments = comment ∧ img.likes = 0 ∧ img.likedBy = []) ∧
    (∀ i, ∀ hf : i < files.length, ∀ hi : i < imgs.length,
      (imgs.get ⟨i, hi⟩).type =
        if "video".toList.isPrefixOf (files.get ⟨i, hf⟩).mimetype
        then "video".toList else "image".toList) := by
  simp only [uploadRoute] at h
  split at h
  · exact absurd h (by simp)
  · rw [UploadOutcome.ok.injEq] at h
    subst h
    refine ⟨List.length_map _ _, ?_, ?_⟩
    · intro img hmem
      rw [List.mem_map] at hmem
      obtain ⟨f, _, hf⟩ := hmem
      subst hf
      exact ⟨rfl, rfl, rfl⟩
    · intro i hf hi
      simp only [List.get_eq_getElem, List.getElem_map]
      rfl

def file1 : UploadFile := { path := "u1".toList, mimetype := "video/mp4".toList }

def file2 : UploadFile := { path := "u2".toList, mimetype := "image/png".toList }

def img1 : Image :=
  { url := "u1".toList, type := "video".toList, comments := "cap".toList, likes := 0,
    likedBy := [], uploaderId := "i".toList, uploaderRole := "campus".toList,
    uploaderName := "n".toList, uploaderLogo := "l".toList }

def img2 : Image :=
  { url := "u2".toList, type := "image".toList, comments := "cap".toList, likes := 0,
    likedBy := [], uploaderId := "i".toList, uploaderRole := "campus".toList,
    uploaderName := "n".toList, uploaderLogo := "l".toList }

/-- Witness for C8: uploading a video file and an image file with caption
`"cap"` creates two posts with the expected captions, counters and kinds. -/
theorem upload_creates_posts_witness :
    ([img1, img2] : List Image).length = ([file1, file2] : List UploadFile).length ∧
    img1.comments = "cap".toList ∧ img1.likes = 0 ∧ img1.likedBy = ([] : List Str) ∧
    img2.comments = "cap".toList ∧ img2.likes = 0 ∧ img2.likedBy = ([] : List Str) := by
  have h := upload_creates_posts [file1, file2] ("cap".toList) ("i".toList)
    ("campus".toList) ("n".toList) ("l".toList) [img1, img2] (by decide)
  obtain ⟨hl, hall, _⟩ := h
  have ha := hall img1 (by simp)
  have hb := hall img2 (by simp)
  exact ⟨hl, ha.1, ha.2.1, ha.2.2, hb.1, hb.2.1, hb.2.2⟩

/-! ### Claim C9 -/

/-- C9: the like route's response never disagrees with the persisted state:
the returned liked flag is true exactly when the device is in the
post-toggle `likedBy`, and the returned `likes` equals the post-toggle
stored counter. -/
theorem like_response_consistent (img : Image) (dev : Str) :
    ((likeToggle img dev).2.liked = true ↔ dev ∈ (toggleLike img dev).likedBy) ∧
    (likeToggle img dev).2.likes = (toggleLike img dev).likes := by
  refine ⟨?_, rfl⟩
  by_cases hd : dev ∈ img.likedBy
  · have h2 : (likeToggle img dev).2.liked = false := by simp [likeToggle, hd]
    rw [h2, (toggleLike_mem img dev hd).2]
    simp [List.mem_filter]
  · have h2 : (likeToggle img dev).2.liked = true := by simp [likeToggle, hd]
    rw [h2, (toggleLike_not_mem img dev hd).2]
    simp


/-! ### Claim C10 -/

/-- C10: an upload request with complete uploader metadata and an empty
file list succeeds, creating zero posts — the absence of files raises no
validation error. -/
theorem upload_empty_files_ok (comment uId uRole uName uLogo : Str)
    (h1 : uId ≠ []) (h2 : uRole ≠ []) (h3 : uName ≠ []) (h4 : uLogo ≠ []) :
    uploadRoute [] comment uId uRole uName uLogo = .ok [] := by
  unfold uploadRoute
  rw [if_neg (by simp [h1, h2, h3, h4])]
  rfl

/-- Witness for C10: the empty upload with concrete metadata succeeds. -/
theorem upload_empty_files_ok_witness :
    uploadRoute [] ("c".toList) ("i".toList) ("campus".toList) ("n".toList) ("l".toList)
      = .ok [] :=
  upload_empty_files_ok ("c".toList) ("i".toList) ("campus".toList) ("n".toList) ("l".toList)
    (by decide) (by decide) (by decide) (by decide)

end HarvestersHub
